import Mathlib

/-!
# Verification of the Langfuse MCP server core (cache + API client)

Shallow embedding of `src/lib/cache.ts` and `src/lib/langfuse-client.ts`.

* JavaScript numbers that hold epoch milliseconds / TTLs are modelled as `Int`
  (all arithmetic in the source stays far below 2^53, where JS numbers are
  exact integers); `NaN` outcomes are modelled by `Option Int` with `none`
  standing for `NaN`.
* The JS `Map` is modelled as an association list with `Map.get`/`Map.set`/
  `Map.delete` semantics (`mapGet`, `mapSet`, `mapDelete` below); `Map.set`
  replaces an existing binding in place, otherwise appends.
* `a || b` on numbers/strings (falsy coalescing: `undefined`, `0`, `""` fall
  through to the default) is `jsOrNum` / `jsOrStr`, with `Option` playing the
  role of possibly-`undefined` values.
-/

namespace Langfuse

/-- JS `v || d` for an optional number `v`: `undefined` and `0` are falsy. -/
def jsOrNum (v : Option Int) (d : Int) : Int :=
  match v with
  | none => d
  | some n => if n = 0 then d else n

/-- JS `v || d` for an optional string `v`: `undefined` and `""` are falsy. -/
def jsOrStr (v : Option String) (d : String) : String :=
  match v with
  | none => d
  | some s => if s = "" then d else s

/-- Decimal value of a run of digit characters (most significant first). -/
def digitsVal (ds : List Char) : Nat :=
  ds.foldl (fun a c => a * 10 + (c.toNat - ('0').toNat)) 0

/-- JS `parseInt(s)` (radix 10): skip leading ASCII whitespace, read an
optional sign and then a maximal run of decimal digits; `NaN` (= `none`)
when no digit follows.  (The hexadecimal `0x` auto-detection of `parseInt`
is not modelled; no string in the repository or in the claims uses it.) -/
def jsParseInt (s : String) : Option Int :=
  let cs := s.data.dropWhile (fun c => c = ' ' ∨ c = '\t' ∨ c = '\n' ∨ c = '\r')
  let signRest : Int × List Char :=
    match cs with
    | '-' :: t => (-1, t)
    | '+' :: t => (1, t)
    | t => (1, t)
  let ds := signRest.2.takeWhile Char.isDigit
  if ds.isEmpty then none
  else some (signRest.1 * (digitsVal ds : Int))

/-! ## JS `Map` as an association list -/

/-- `Map.prototype.get`: first binding of the key, if any. -/
def mapGet {β : Type} : List (String × β) → String → Option β
  | [], _ => none
  | (k', v) :: rest, k => if k' = k then some v else mapGet rest k

/-- `Map.prototype.set`: replace the binding in place if the key is present,
otherwise append a fresh binding. -/
def mapSet {β : Type} : List (String × β) → String → β → List (String × β)
  | [], k, v => [(k, v)]
  | (k', v') :: rest, k, v =>
      if k' = k then (k, v) :: rest else (k', v') :: mapSet rest k v

/-- `Map.prototype.delete` (result state only). -/
def mapDelete {β : Type} (m : List (String × β)) (k : String) :
    List (String × β) :=
  m.filter (fun p => p.1 ≠ k)

theorem mapGet_mapSet {β : Type} (m : List (String × β)) (k : String) (v : β)
    (k' : String) :
    mapGet (mapSet m k v) k' = if k = k' then some v else mapGet m k' := by
  induction m with
  | nil =>
    by_cases h : k = k' <;> simp [mapSet, mapGet, h]
  | cons p rest ih =>
    obtain ⟨k₀, v₀⟩ := p
    by_cases h₀ : k₀ = k
    · subst h₀
      by_cases h : k₀ = k' <;> simp [mapSet, mapGet, h]
    · by_cases h : k₀ = k'
      · subst h
        have hkk : ¬ k = k₀ := fun hh => h₀ hh.symm
        simp [mapSet, mapGet, h₀, hkk]
      · simp [mapSet, mapGet, h₀, h, ih]

theorem mapGet_some_mem {β : Type} (m : List (String × β)) (k : String)
    (v : β) (h : mapGet m k = some v) : (k, v) ∈ m := by
  induction m with
  | nil => simp [mapGet] at h
  | cons p rest ih =>
    obtain ⟨k₀, v₀⟩ := p
    by_cases hk : k₀ = k
    · subst hk
      simp [mapGet] at h
      simp [h]
    · simp [mapGet, hk] at h
      exact List.mem_cons_of_mem _ (ih h)

theorem mapGet_eq_none_of_not_mem {β : Type} (m : List (String × β))
    (k : String) (h : k ∉ m.map Prod.fst) : mapGet m k = none := by
  induction m with
  | nil => simp [mapGet]
  | cons q rest ih =>
    obtain ⟨k₀, v₀⟩ := q
    have hne : k₀ ≠ k := by
      intro hk
      exact h (by simp [hk])
    have : k ∉ rest.map Prod.fst := fun hmem => h (by simp [hmem])
    simp [mapGet, hne, ih this]

/-- Looking a key up after a `filter` keeps the first binding exactly when the
predicate accepts it, provided the keys are pairwise distinct. -/
theorem mapGet_filter {β : Type} (m : List (String × β))
    (hm : (m.map Prod.fst).Nodup) (p : String × β → Bool) (k : String) :
    mapGet (m.filter p) k =
      match mapGet m k with
      | some v => if p (k, v) then some v else none
      | none => none := by
  induction m with
  | nil => simp [mapGet]
  | cons q rest ih =>
    obtain ⟨k₀, v₀⟩ := q
    have hm' : (k₀ :: rest.map Prod.fst).Nodup := by simpa using hm
    have hnotin : k₀ ∉ rest.map Prod.fst := (List.nodup_cons.mp hm').1
    have hrest : (rest.map Prod.fst).Nodup := (List.nodup_cons.mp hm').2
    by_cases hk : k₀ = k
    · subst hk
      have hget : mapGet rest k₀ = none := mapGet_eq_none_of_not_mem _ _ hnotin
      by_cases hp : p (k₀, v₀)
      · simp [List.filter, hp, mapGet]
      · have hfil : mapGet (rest.filter p) k₀ = none := by
          apply mapGet_eq_none_of_not_mem
          intro hmem
          obtain ⟨x, hx, hfst⟩ := List.mem_map.mp hmem
          exact hnotin (List.mem_map.mpr ⟨x, List.mem_of_mem_filter hx, hfst⟩)
        simp [List.filter, hp, mapGet, hget, hfil]
    · by_cases hp : p (k₀, v₀) <;>
        simp [List.filter, hp, mapGet, hk, ih hrest]

/-! ## Cache (`src/lib/cache.ts`, class `Cache<T>`) -/

/-- `CacheEntry<T>` from `src/types/index.ts`: `{ data: T, expiresAt: number }`
(`expiresAt` is an epoch-milliseconds timestamp). -/
structure CacheEntry (T : Type) where
  data : T
  expiresAt : Int
deriving Repr, DecidableEq

/-- `CacheOptions` from `src/types/index.ts`: both fields optional. -/
structure CacheOptions where
  ttl : Option Int := none
  keyPrefix : Option String := none
deriving Repr, DecidableEq

/-- State of a `Cache<T>` instance: the private `Map` plus the two
configuration fields fixed at construction. -/
structure Cache (T : Type) where
  cache : List (String × CacheEntry T)
  defaultTTL : Int
  keyPrefix : String
deriving Repr, DecidableEq

namespace Cache

/-- `new Cache(options)`: `defaultTTL = options.ttl || 300`,
`keyPrefix = options.keyPrefix || ''`; `options` itself defaults to `{}`. -/
def new (T : Type) (options : Option CacheOptions) : Cache T :=
  let opts := options.getD {}
  { cache := []
    defaultTTL := jsOrNum opts.ttl 300
    keyPrefix := jsOrStr opts.keyPrefix "" }

/-- `Cache.get(key)` at time `now` (`Date.now()`): returns the value (or
`none`) together with the state after the lazy deletion of an expired
entry. -/
def get {T : Type} (c : Cache T) (now : Int) (key : String) :
    Option T × Cache T :=
  let fullKey := c.keyPrefix ++ key
  match mapGet c.cache fullKey with
  | none => (none, c)
  | some entry =>
      if now > entry.expiresAt then
        (none, { c with cache := mapDelete c.cache fullKey })
      else
        (some entry.data, c)

/-- `Cache.set(key, value, ttl?)` at time `now`:
`expiresAt = now + (ttl || defaultTTL) * 1000`, stored with `Map.set`. -/
def set {T : Type} (c : Cache T) (now : Int) (key : String) (value : T)
    (ttl : Option Int) : Cache T :=
  let fullKey := c.keyPrefix ++ key
  let expiresAt := now + (jsOrNum ttl c.defaultTTL) * 1000
  { c with cache := mapSet c.cache fullKey ⟨value, expiresAt⟩ }

/-- `Cache.delete(key)`: removal plus the boolean result of `Map.delete`. -/
def del {T : Type} (c : Cache T) (key : String) : Bool × Cache T :=
  let fullKey := c.keyPrefix ++ key
  ((mapGet c.cache fullKey).isSome,
    { c with cache := mapDelete c.cache fullKey })

/-- `Cache.cleanup()` at time `now`: deletes every entry with
`now > entry.expiresAt`. -/
def cleanup {T : Type} (c : Cache T) (now : Int) : Cache T :=
  { c with cache := c.cache.filter (fun p => !(now > p.2.expiresAt)) }

/-- `startsRun p k`: the character list `p` is a prefix of `k`. -/
def startsRun : List Char → List Char → Bool
  | [], _ => true
  | _ :: _, [] => false
  | a :: as, b :: bs => a = b && startsRun as bs

/-- `containsRun p k`: `p` occurs contiguously somewhere in `k`. -/
def containsRun : List Char → List Char → Bool
  | p, [] => p.isEmpty
  | p, b :: bs => startsRun p (b :: bs) || containsRun p bs

/-- `regex.test(key)` for a `pattern` that is a literal string (no regular
expression metacharacters): an unanchored search, i.e. the pattern occurs as
a contiguous substring of the key.  The general regular-expression engine is
not modelled; every pattern the repository passes (prompt names) is literal. -/
def regexTestLiteral (pattern key : String) : Bool :=
  containsRun pattern.data key.data

/-- `Cache.invalidatePattern(pattern)`: deletes every key matched by
`new RegExp(pattern)` (modelled for literal patterns). -/
def invalidatePattern {T : Type} (c : Cache T) (pattern : String) : Cache T :=
  { c with cache := c.cache.filter (fun p => !(regexTestLiteral pattern p.1)) }

end Cache

/-! ## CacheManager (`src/lib/cache.ts`, class `CacheManager`)

Reference identity of the `Cache` objects handed out by the manager is made
observable by tagging each constructed `Cache` with a serial number `id`
drawn from a counter: two results of `getCache` denote the same JS object
exactly when their `id`s agree. -/

/-- A `Cache` object together with its allocation serial number. -/
structure ManagedCache (T : Type) where
  id : Nat
  cache : Cache T
deriving Repr, DecidableEq

/-- State of the `CacheManager` singleton: the private `caches` map plus the
allocation counter for fresh object identities. -/
structure CacheManager (T : Type) where
  caches : List (String × ManagedCache T)
  nextId : Nat
deriving Repr, DecidableEq

namespace CacheManager

/-- The manager as first constructed (empty `caches` map). -/
def empty (T : Type) : CacheManager T := ⟨[], 0⟩

/-- `CacheManager.getCache(name, options)`: insert-if-absent, then return the
stored cache.  Options are only consulted when the name is not yet
registered. -/
def getCache {T : Type} (m : CacheManager T) (name : String)
    (options : Option CacheOptions) : ManagedCache T × CacheManager T :=
  match mapGet m.caches name with
  | some c => (c, m)
  | none =>
      let c : ManagedCache T := ⟨m.nextId, Cache.new T options⟩
      (c, ⟨mapSet m.caches name c, m.nextId + 1⟩)

/-- `CacheManager.clearAll()`: clears every registered cache's contents
without deregistering any cache. -/
def clearAll {T : Type} (m : CacheManager T) : CacheManager T :=
  { m with caches := m.caches.map (fun p => (p.1, { p.2 with cache := { p.2.cache with cache := [] } })) }

/-- Well-formedness of a manager state: registered names are pairwise
distinct (a `Map` invariant), object identities are pairwise distinct, and
every allocated identity is below the counter.  Holds for `empty` and is
preserved by `getCache`. -/
def WF {T : Type} (m : CacheManager T) : Prop :=
  (m.caches.map Prod.fst).Nodup ∧
  (m.caches.map (fun p => p.2.id)).Nodup ∧
  ∀ p ∈ m.caches, p.2.id < m.nextId

instance {T : Type} [DecidableEq T] (m : CacheManager T) :
    Decidable (WF m) := by
  unfold WF
  infer_instance

end CacheManager

/-! ## API client (`src/lib/langfuse-client.ts`) -/

/-- `LangfuseConfig` from `src/types/index.ts`. -/
structure LangfuseConfig where
  publicKey : String
  secretKey : String
  baseUrl : Option String := none
  requestTimeout : Option Int := none
  maxRetries : Option Int := none
deriving Repr, DecidableEq

/-- The error values a client operation can surface (the classes of
`src/types/index.ts` plus the bare `Error` thrown by `createPrompt` and the
network-level `FetchError` that is rethrown verbatim).  `rateLimit` carries
`retryAfter : Option Int`, `none` standing for `NaN`. -/
inductive ClientError where
  | api (status : Nat) (message : String)
  | auth (message : String)
  | rateLimit (retryAfter : Option Int)
  | validation (field constraint : String)
  | network
  | plain (message : String)
deriving Repr, DecidableEq

/-- Whether an error is a `ValidationError` (field + constraint). -/
def ClientError.isValidationErr : ClientError → Bool
  | .validation _ _ => true
  | _ => false

/-- Outcome of one `fetch` attempt, as scripted by the environment: either a
response (status, optional `Retry-After` header, body text) or a rejection
named `AbortError` (the timeout path) or `FetchError` (network failure). -/
inductive FetchOutcome where
  | response (status : Nat) (retryAfter : Option String) (body : String)
  | abortError
  | fetchError
deriving Repr, DecidableEq

/-- Status of a scripted outcome (0 for rejections). -/
def FetchOutcome.statusOf : FetchOutcome → Nat
  | .response s _ _ => s
  | _ => 0

/-- An outcome that the retry policy classifies as a server error:
a response with status ≥ 500. -/
def FetchOutcome.isServerError : FetchOutcome → Bool
  | .response s _ _ => 500 ≤ s
  | _ => false

instance {α β : Type} [DecidableEq α] [DecidableEq β] :
    DecidableEq (Except α β) := fun a b =>
  match a, b with
  | .ok x, .ok y =>
      if h : x = y then .isTrue (by rw [h]) else .isFalse (by simp [h])
  | .error x, .error y =>
      if h : x = y then .isTrue (by rw [h]) else .isFalse (by simp [h])
  | .ok _, .error _ => .isFalse (by simp)
  | .error _, .ok _ => .isFalse (by simp)

/-- What the `try` block can throw: the two `fetch` rejections, or one of
the error objects the block constructs itself. -/
inductive Caught where
  | abortError
  | fetchError
  | thrown (e : ClientError)
deriving Repr, DecidableEq

/-- `parseInt(response.headers.get('Retry-After') || '60')`: an absent
header is `null` and an empty one is falsy, so both fall back to `"60"`. -/
def retryAfterValue (h : Option String) : Option Int :=
  jsParseInt (jsOrStr h "60")

/-- The `try` block of `LangfuseAPIClient.request` on one scripted outcome:
429 → `RateLimitError`, 401/403 → `AuthenticationError`, other non-2xx
(`!response.ok`) → `APIError(status)`, 2xx → the body. -/
def attemptOnce (o : FetchOutcome) : Except Caught String :=
  match o with
  | .abortError => .error .abortError
  | .fetchError => .error .fetchError
  | .response status retryAfter body =>
      if status = 429 then
        .error (.thrown (.rateLimit (retryAfterValue retryAfter)))
      else if status = 401 ∨ status = 403 then
        .error (.thrown (.auth "Authentication failed"))
      else if ¬ (200 ≤ status ∧ status ≤ 299) then
        .error (.thrown (.api status "API request failed"))
      else
        .ok body

/-- The retry guard of the `catch` block:
`error.name === 'FetchError' || (error instanceof APIError && error.status >= 500)`.
`RateLimitError` and `AuthenticationError` extend `Error`, not `APIError`,
so they never satisfy it. -/
def retriable : Caught → Bool
  | .fetchError => true
  | .thrown (.api s _) => 500 ≤ s
  | _ => false

/-- The error object the `catch` block rethrows (`throw error`). -/
def caughtError : Caught → ClientError
  | .abortError => .api 408 "Request timeout"
  | .fetchError => .network
  | .thrown e => e

/-- `LangfuseAPIClient.request` from `retryCount = maxRetries - budget`
onward, with the outcome of attempt number `rc` (0-based) scripted by
`env rc`.  Returns the final result together with the list of backoff
delays (in milliseconds) awaited, in order.  The `budget` argument keeps
the recursion structural; `request` below ties `budget = maxRetries`, so
`budget > 0 ↔ retryCount < maxRetries` at every attempt, and both arms
below are the same `catch` block: an `AbortError` is replaced by
`APIError(408)` and rethrown from inside the catch (escaping the retry
logic), then the guard
`retryCount < maxRetries && (FetchError || APIError ≥ 500)` decides
between backoff-and-recurse and `throw error`. -/
def requestAux (env : Nat → FetchOutcome) :
    Nat → Nat → Except ClientError String × List Nat
  | 0, rc =>
      match attemptOnce (env rc) with
      | .ok body => (.ok body, [])
      | .error .abortError => (.error (.api 408 "Request timeout"), [])
      | .error e => (.error (caughtError e), [])
  | b + 1, rc =>
      match attemptOnce (env rc) with
      | .ok body => (.ok body, [])
      | .error .abortError => (.error (.api 408 "Request timeout"), [])
      | .error e =>
          if retriable e then
            let r := requestAux env b (rc + 1)
            (r.1, 2 ^ rc * 1000 :: r.2)
          else
            (.error (caughtError e), [])

/-- `LangfuseAPIClient.request` entered with `retryCount = 0`. -/
def request (maxRetries : Nat) (env : Nat → FetchOutcome) :
    Except ClientError String × List Nat :=
  requestAux env maxRetries 0

/-! ### Client construction -/

/-- The private fields of `LangfuseAPIClient` fixed by the constructor.
`auth` holds the credential pair `publicKey:secretKey`; the base64 step of
`Buffer.from(...).toString('base64')` is an injective re-encoding that no
claim inspects, so it is left as the identity here. -/
structure LangfuseAPIClient where
  auth : String
  baseUrl : String
  requestTimeout : Int
  maxRetries : Int
deriving Repr, DecidableEq

/-- `new LangfuseAPIClient(config)`: throws `AuthenticationError` when either
credential is missing/empty (both are falsy strings), otherwise fills the
fields with `config.x || default`. -/
def LangfuseAPIClient.construct (config : LangfuseConfig) :
    Except ClientError LangfuseAPIClient :=
  if config.publicKey = "" ∨ config.secretKey = "" then
    .error (.auth "Missing Langfuse API credentials")
  else
    .ok { auth := config.publicKey ++ ":" ++ config.secretKey
          baseUrl := jsOrStr config.baseUrl "https://cloud.langfuse.com"
          requestTimeout := jsOrNum config.requestTimeout 30000
          maxRetries := jsOrNum config.maxRetries 3 }

/-! ### `createPrompt` -/

/-- `'text' | 'chat'`. -/
inductive PromptType where
  | text
  | chat
deriving Repr, DecidableEq

/-- `string | ChatMessage[]`: the two runtime shapes `params.prompt` can
take (`Array.isArray` distinguishes them). -/
inductive PromptContent where
  | str (s : String)
  | messages (msgs : List (String × String))
deriving Repr, DecidableEq

/-- `Array.isArray(params.prompt)`. -/
def PromptContent.isArrayShaped : PromptContent → Bool
  | .messages _ => true
  | .str _ => false

/-- `typeof params.prompt === 'string'`. -/
def PromptContent.isStringShaped : PromptContent → Bool
  | .str _ => true
  | .messages _ => false

/-- The fields of `CreatePromptParams` that `createPrompt` inspects
locally. -/
structure CreatePromptParams where
  name : String
  type : PromptType
  prompt : PromptContent
deriving Repr, DecidableEq

/-- The local shape checks at the top of `LangfuseAPIClient.createPrompt`,
in source order; `some msg` is the message of the thrown `new Error(msg)`. -/
def createPromptCheck (params : CreatePromptParams) : Option String :=
  if params.type = .chat ∧ ¬ params.prompt.isArrayShaped then
    some "Chat prompts must be an array of messages"
  else if params.type = .text ∧ ¬ params.prompt.isStringShaped then
    some "Text prompts must be a string"
  else
    none

/-- `LangfuseAPIClient.createPrompt(params)`: the shape checks, then the
POST through `request`.  The second component counts how many times the
network request path was entered (`0` = failed fast before any request). -/
def createPrompt (maxRetries : Nat) (env : Nat → FetchOutcome)
    (params : CreatePromptParams) : Except ClientError String × Nat :=
  match createPromptCheck params with
  | some msg => (.error (.plain msg), 0)
  | none => ((request maxRetries env).1, 1)

/-! ## Helper lemmas about the request pipeline -/

theorem serverError_shape (o : FetchOutcome)
    (h : o.isServerError = true) :
    ∃ s rh body, 500 ≤ s ∧ o = .response s rh body := by
  cases o with
  | response s rh body =>
      exact ⟨s, rh, body, by simpa [FetchOutcome.isServerError] using h, rfl⟩
  | abortError => simp [FetchOutcome.isServerError] at h
  | fetchError => simp [FetchOutcome.isServerError] at h

theorem attemptOnce_server (s : Nat) (rh : Option String) (body : String)
    (hs : 500 ≤ s) :
    attemptOnce (.response s rh body) =
      .error (.thrown (.api s "API request failed")) := by
  have h1 : s ≠ 429 := by omega
  have h2 : ¬ (s = 401 ∨ s = 403) := by omega
  have h3 : ¬ (200 ≤ s ∧ s ≤ 299) := by omega
  simp [attemptOnce, h1, h2, h3]

theorem delays_range_succ (rc d : Nat) :
    (List.range (d + 1)).map (fun i => 2 ^ (rc + i) * 1000) =
      2 ^ rc * 1000 :: (List.range d).map (fun i => 2 ^ (rc + 1 + i) * 1000) := by
  rw [List.range_succ_eq_map, List.map_cons, List.map_map]
  refine congrArg₂ _ (by simp) ?_
  apply List.map_congr_left
  intro i _
  have hidx : rc + (i + 1) = rc + 1 + i := by omega
  simp [Function.comp, Nat.succ_eq_add_one, hidx]

/-- When every scripted attempt is a 5xx response, the request performs
the full backoff schedule and surfaces the failure of the final attempt. -/
theorem requestAux_all_server (env : Nat → FetchOutcome)
    (hall : ∀ i, (env i).isServerError = true) :
    ∀ b rc, requestAux env b rc =
      (.error (.api (env (rc + b)).statusOf "API request failed"),
        (List.range b).map (fun i => 2 ^ (rc + i) * 1000)) := by
  intro b
  induction b with
  | zero =>
      intro rc
      obtain ⟨s, rh, body, hs, henv⟩ := serverError_shape (env rc) (hall rc)
      simp [requestAux, henv, attemptOnce_server _ _ _ hs, caughtError,
        FetchOutcome.statusOf]
  | succ b ih =>
      intro rc
      obtain ⟨s, rh, body, hs, henv⟩ := serverError_shape (env rc) (hall rc)
      have hr : retriable (.thrown (.api s "API request failed")) = true := by
        simp [retriable, hs]
      have hidx : rc + 1 + b = rc + (b + 1) := by omega
      simp [requestAux, henv, attemptOnce_server _ _ _ hs, hr, ih (rc + 1),
        hidx, delays_range_succ]

/-- When the first `d` scripted attempts are 5xx responses and attempt `d`
succeeds, and at least `d` retries are within budget, the request returns
the success while backing off before each retry. -/
theorem requestAux_success_after (env : Nat → FetchOutcome) (body : String) :
    ∀ d b rc, d ≤ b →
      (∀ i, i < d → (env (rc + i)).isServerError = true) →
      attemptOnce (env (rc + d)) = .ok body →
      requestAux env b rc =
        (.ok body, (List.range d).map (fun i => 2 ^ (rc + i) * 1000)) := by
  intro d
  induction d with
  | zero =>
      intro b rc _ _ hok
      have hok' : attemptOnce (env rc) = .ok body := by simpa using hok
      cases b <;> simp [requestAux, hok']
  | succ d ih =>
      intro b rc hdb hfail hok
      obtain ⟨b', rfl⟩ : ∃ b', b = b' + 1 := ⟨b - 1, by omega⟩
      have h0 : (env rc).isServerError = true := by
        simpa using hfail 0 (by omega)
      obtain ⟨s, rh, bod, hs, henv⟩ := serverError_shape (env rc) h0
      have hr : retriable (.thrown (.api s "API request failed")) = true := by
        simp [retriable, hs]
      have hfail' : ∀ i, i < d → (env (rc + 1 + i)).isServerError = true := by
        intro i hi
        have hidx : rc + 1 + i = rc + (i + 1) := by omega
        rw [hidx]
        exact hfail (i + 1) (by omega)
      have hok' : attemptOnce (env (rc + 1 + d)) = .ok body := by
        have hidx : rc + 1 + d = rc + (d + 1) := by omega
        rw [hidx]; exact hok
      simp [requestAux, henv, attemptOnce_server _ _ _ hs, hr,
        ih b' (rc + 1) (by omega) hfail' hok', delays_range_succ]

/-! ## Claims -/

/-- C1, corrected.  The claim says a timeout/abort failure is retried with
exponential backoff while `retryCount < maxRetries`.  In the code the
`AbortError` branch of the catch block throws `APIError(408)` from inside
the catch, which escapes the function before the retry guard is reached:
a timeout is surfaced to the caller immediately, with no backoff delay and
no further attempt, regardless of the remaining retry budget. -/
theorem c1_timeout_never_retried (env : Nat → FetchOutcome)
    (budget rc : Nat) (h : env rc = .abortError) :
    requestAux env budget rc = (.error (.api 408 "Request timeout"), []) := by
  cases budget <;> simp [requestAux, h, attemptOnce]

/-- C1 counterexample: every attempt times out and `maxRetries = 3`, yet
the 408 error reaches the caller after the first attempt with an empty
backoff-delay list — not the `[1000, 2000, 4000]` schedule the claim
requires before surfacing. -/
theorem c1_counterexample :
    request 3 (fun _ => FetchOutcome.abortError) =
      (.error (.api 408 "Request timeout"), []) ∧
    (request 3 (fun _ => FetchOutcome.abortError)).2 ≠ [1000, 2000, 4000] := by
  exact ⟨rfl, by decide⟩

/-- C1 witness: the amended theorem applied at a concrete timed-out
attempt. -/
theorem c1_witness :
    (fun _ => FetchOutcome.abortError) 1 = FetchOutcome.abortError ∧
    requestAux (fun _ => FetchOutcome.abortError) 2 1 =
      (.error (.api 408 "Request timeout"), []) :=
  ⟨rfl, c1_timeout_never_retried (fun _ => FetchOutcome.abortError) 2 1 rfl⟩

/-- C2, corrected.  On HTTP 429 the operation fails immediately (no retry)
with a Rate-limit error whose `retryAfter` is
`parseInt(headers.get('Retry-After') || '60')`: `60` when the header is
absent or empty (both falsy), the parsed value when it parses, but `NaN`
(modelled `none`) — not `60` — when a non-empty header does not parse as an
integer. -/
theorem c2_rate_limit_retry_after (env : Nat → FetchOutcome)
    (budget rc : Nat) (rh : Option String) (body : String)
    (henv : env rc = .response 429 rh body) :
    requestAux env budget rc = (.error (.rateLimit (retryAfterValue rh)), [])
    ∧ retryAfterValue none = some 60
    ∧ retryAfterValue (some "") = some 60
    ∧ ∀ s, s ≠ "" → retryAfterValue (some s) = jsParseInt s := by
  refine ⟨?_, by decide, by decide, fun s hs => ?_⟩
  · cases budget <;>
      simp [requestAux, henv, attemptOnce, retriable, caughtError]
  · simp [retryAfterValue, jsOrStr, hs]

/-- C2 counterexample: a 429 response whose `Retry-After` header is the
unparsable string `"abc"` produces `retryAfter = NaN` (`none`), not the
default `60` the claim requires for an unparsable header. -/
theorem c2_counterexample :
    request 3 (fun _ => FetchOutcome.response 429 (some "abc") "") =
      (.error (.rateLimit none), [])
    ∧ ClientError.rateLimit none ≠ ClientError.rateLimit (some 60) := by
  exact ⟨rfl, by decide⟩

/-- C2 witness: the amended theorem applied to a concrete 429 response with
no `Retry-After` header. -/
theorem c2_witness :
    (fun _ => FetchOutcome.response 429 none "b") 0 =
      FetchOutcome.response 429 none "b" ∧
    (requestAux (fun _ => FetchOutcome.response 429 none "b") 3 0 =
        (.error (.rateLimit (retryAfterValue none)), [])
      ∧ retryAfterValue none = some 60
      ∧ retryAfterValue (some "") = some 60
      ∧ ∀ s, s ≠ "" → retryAfterValue (some s) = jsParseInt s) :=
  ⟨rfl, c2_rate_limit_retry_after (fun _ => FetchOutcome.response 429 none "b")
    3 0 none "b" rfl⟩

/-- C3, corrected.  The claim puts the expiry boundary at
`expiresAt <= now`; the code tests `now > entry.expiresAt` in both `get`
and `cleanup`, so the boundary is strict: a key is logically absent exactly
when no entry is stored or the stored entry has `expiresAt < now`; at
`expiresAt = now` `get` still returns the value; `cleanup()` removes
exactly the entries with `expiresAt < now` and leaves every other entry's
value unchanged. -/
theorem c3_expiry_boundary_strict {T : Type} (c : Cache T) (now : Int)
    (key : String) (hwf : (c.cache.map Prod.fst).Nodup) :
    ((c.get now key).1 = none ↔
      ∀ e, mapGet c.cache (c.keyPrefix ++ key) = some e → e.expiresAt < now)
    ∧ (∀ e, mapGet c.cache (c.keyPrefix ++ key) = some e →
        now ≤ e.expiresAt → (c.get now key).1 = some e.data)
    ∧ (∀ k, mapGet (c.cleanup now).cache k =
        (mapGet c.cache k).filter (fun e => !(e.expiresAt < now))) := by
  refine ⟨?_, ?_, ?_⟩
  · cases hm : mapGet c.cache (c.keyPrefix ++ key) with
    | none => simp [Cache.get, hm]
    | some e =>
        by_cases hexp : e.expiresAt < now <;>
          simp [Cache.get, hm, hexp, gt_iff_lt]
  · intro e hm hle
    have hnlt : ¬ (e.expiresAt < now) := not_lt.mpr hle
    simp [Cache.get, hm, gt_iff_lt, hnlt]
  · intro k
    have hfil := mapGet_filter c.cache hwf
      (fun p => !(now > p.2.expiresAt)) k
    simp only [Cache.cleanup] at *
    rw [hfil]
    cases hm : mapGet c.cache k with
    | none => simp [Option.filter]
    | some e =>
        by_cases hexp : e.expiresAt < now <;>
          simp [Option.filter, hexp, gt_iff_lt]

/-- C3 counterexample: an entry whose `expiresAt` equals `now` (both 100).
The claim says the key is then absent and `cleanup` removes the entry; the
code's strict comparison keeps it: `get` returns the value and `cleanup`
leaves the entry in place. -/
theorem c3_counterexample :
    (Cache.get (T := Nat) ⟨[("k", ⟨7, 100⟩)], 300, ""⟩ 100 "k").1 = some 7
    ∧ (Cache.cleanup (T := Nat) ⟨[("k", ⟨7, 100⟩)], 300, ""⟩ 100).cache =
        [("k", ⟨7, 100⟩)] :=
  ⟨rfl, rfl⟩

/-- C3 witness: the amended theorem applied to a one-entry cache. -/
theorem c3_witness :
    ((Cache.mk (T := Nat) [("a", ⟨1, 50⟩)] 300 "").cache.map Prod.fst).Nodup
    ∧ ((((Cache.mk (T := Nat) [("a", ⟨1, 50⟩)] 300 "").get 100 "a").1 = none ↔
        ∀ e, mapGet (Cache.mk (T := Nat) [("a", ⟨1, 50⟩)] 300 "").cache
            ((Cache.mk (T := Nat) [("a", ⟨1, 50⟩)] 300 "").keyPrefix ++ "a")
            = some e → e.expiresAt < 100)
      ∧ (∀ e, mapGet (Cache.mk (T := Nat) [("a", ⟨1, 50⟩)] 300 "").cache
            ((Cache.mk (T := Nat) [("a", ⟨1, 50⟩)] 300 "").keyPrefix ++ "a")
            = some e → 100 ≤ e.expiresAt →
          ((Cache.mk (T := Nat) [("a", ⟨1, 50⟩)] 300 "").get 100 "a").1 =
            some e.data)
      ∧ (∀ k, mapGet ((Cache.mk (T := Nat) [("a", ⟨1, 50⟩)] 300 "").cleanup
            100).cache k =
          (mapGet (Cache.mk (T := Nat) [("a", ⟨1, 50⟩)] 300 "").cache
            k).filter (fun e => !(e.expiresAt < 100)))) :=
  ⟨by decide, c3_expiry_boundary_strict (Cache.mk [("a", ⟨1, 50⟩)] 300 "")
    100 "a" (by decide)⟩

/-- C4, corrected.  `set` uses `(ttl || this.defaultTTL) * 1000`, a falsy
coalescing: a provided override of `0` is coerced to `defaultTTL` rather
than honoured, so `expiresAt = now + (if the override is present and
nonzero then it else defaultTTL) * 1000`.  The rest of the claim holds: the
write overwrites any existing entry unconditionally and an immediate `get`
returns the value whenever the effective TTL is positive. -/
theorem c4_set_ttl_zero_falls_back {T : Type} (c : Cache T) (now : Int)
    (key : String) (value : T) (ttl : Option Int) :
    (c.set now key value ttl).cache =
      mapSet c.cache (c.keyPrefix ++ key)
        ⟨value, now + jsOrNum ttl c.defaultTTL * 1000⟩
    ∧ (0 < jsOrNum ttl c.defaultTTL →
        ((c.set now key value ttl).get now key).1 = some value) := by
  refine ⟨rfl, fun hpos => ?_⟩
  have hnlt : ¬ (now > now + jsOrNum ttl c.defaultTTL * 1000) := by omega
  simp [Cache.get, Cache.set, mapGet_mapSet, hnlt]

/-- C4 counterexample: `set(k, 7, 0)` at `now = 0` on a cache with default
TTL 300 stores `expiresAt = 300000`, not the `now + 0 * 1000 = 0` the
claim's formula requires for the provided override `0`. -/
theorem c4_counterexample :
    (Cache.set (T := Nat) ⟨[], 300, ""⟩ 0 "k" 7 (some 0)).cache =
      [("k", ⟨7, 300000⟩)]
    ∧ (300000 : Int) ≠ 0 + 0 * 1000 :=
  ⟨rfl, by decide⟩

/-- C4 witness: the amended theorem applied to a concrete cache with a zero
override, whose effective TTL is the default 300. -/
theorem c4_witness :
    (0 : Int) < jsOrNum (some 0) 300
    ∧ ((Cache.set (T := Nat) ⟨[], 300, ""⟩ 0 "k" 7 (some 0)).get 0 "k").1 =
        some 7 :=
  ⟨by decide,
    (c4_set_ttl_zero_falls_back (Cache.mk [] 300 "") 0 "k" 7 (some 0)).2
      (by decide)⟩

/-- C5, confirmed.  Attempts `0..N-1` fail with 5xx responses and attempt
`N` succeeds with `N < maxRetries`: the call returns the success value
having waited `2^i * 1000` ms before retry `i + 1` (1s, 2s, 4s, ...).  And
when every attempt fails with a 5xx response, the call performs exactly
`maxRetries` backoff delays and surfaces the failure of the last attempt. -/
theorem c5_retry_backoff_schedule (M N : Nat) (env : Nat → FetchOutcome)
    (rh : Option String) (body : String)
    (hfail : ∀ i, i < N → (env i).isServerError = true)
    (hsucc : env N = .response 200 rh body)
    (hNM : N < M) :
    request M env = (.ok body, (List.range N).map (fun i => 2 ^ i * 1000))
    ∧ ∀ env' : Nat → FetchOutcome, (∀ i, (env' i).isServerError = true) →
        request M env' =
          (.error (.api (env' M).statusOf "API request failed"),
            (List.range M).map (fun i => 2 ^ i * 1000)) := by
  constructor
  · have hfail' : ∀ i, i < N → (env (0 + i)).isServerError = true := by
      intro i hi; simpa using hfail i hi
    have hok : attemptOnce (env (0 + N)) = .ok body := by
      simp [hsucc, attemptOnce]
    have := requestAux_success_after env body N M 0 (by omega) hfail' hok
    simpa [request] using this
  · intro env' hall
    have := requestAux_all_server env' hall M 0
    simpa [request] using this

/-- C5 witness: one 503 then a 200; with `maxRetries = 2` the call succeeds
after one 1000 ms backoff. -/
theorem c5_witness :
    (∀ i, i < 1 →
      ((fun j => if j = 0 then FetchOutcome.response 503 none "e"
                 else FetchOutcome.response 200 none "ok") i).isServerError
        = true) ∧
    (fun j => if j = 0 then FetchOutcome.response 503 none "e"
              else FetchOutcome.response 200 none "ok") 1 =
      FetchOutcome.response 200 none "ok" ∧
    (1 : Nat) < 2 ∧
    request 2 (fun j => if j = 0 then FetchOutcome.response 503 none "e"
                        else FetchOutcome.response 200 none "ok") =
      (.ok "ok", [1000]) := by
  refine ⟨by decide, by decide, by decide, ?_⟩
  have h := c5_retry_backoff_schedule 2 1
    (fun j => if j = 0 then FetchOutcome.response 503 none "e"
              else FetchOutcome.response 200 none "ok") none "ok"
    (by decide) (by decide) (by decide)
  simpa using h.1

/-- C7, confirmed.  A 429 response fails with the Rate-limit error and a
401/403 response fails with the Authentication error; neither satisfies the
retry guard (`RateLimitError` and `AuthenticationError` do not extend
`APIError`), so the failure propagates with no backoff delay and no second
attempt, whatever the remaining retry budget. -/
theorem c7_429_401_403_never_retried (env : Nat → FetchOutcome)
    (budget rc s : Nat) (rh : Option String) (body : String)
    (henv : env rc = .response s rh body)
    (hs : s = 429 ∨ s = 401 ∨ s = 403) :
    requestAux env budget rc =
      (.error (if s = 429 then .rateLimit (retryAfterValue rh)
               else .auth "Authentication failed"), []) := by
  rcases hs with rfl | rfl | rfl <;>
    cases budget <;>
      simp [requestAux, henv, attemptOnce, retriable, caughtError]

/-- C7 witness: the theorem applied to a concrete 403 response with a large
retry budget. -/
theorem c7_witness :
    (fun _ => FetchOutcome.response 403 none "x") 0 =
      FetchOutcome.response 403 none "x" ∧
    ((403 : Nat) = 429 ∨ (403 : Nat) = 401 ∨ (403 : Nat) = 403) ∧
    requestAux (fun _ => FetchOutcome.response 403 none "x") 5 0 =
      (.error (.auth "Authentication failed"), []) := by
  refine ⟨rfl, by decide, ?_⟩
  have h := c7_429_401_403_never_retried
    (fun _ => FetchOutcome.response 403 none "x") 5 0 403 none "x" rfl
    (by decide)
  simpa using h

/-! ## Substring semantics of literal-pattern matching -/

theorem startsRun_iff (p : List Char) :
    ∀ k, Cache.startsRun p k = true ↔ ∃ post, k = p ++ post := by
  induction p with
  | nil => intro k; simp [Cache.startsRun]
  | cons a as ih =>
      intro k
      cases k with
      | nil =>
          simp [Cache.startsRun]
      | cons b bs =>
          simp only [Cache.startsRun, Bool.and_eq_true, decide_eq_true_eq,
            ih, List.cons_append, List.cons.injEq]
          constructor
          · rintro ⟨hab, post, hpost⟩
            exact ⟨post, hab.symm, hpost⟩
          · rintro ⟨post, hba, hpost⟩
            exact ⟨hba.symm, post, hpost⟩

theorem containsRun_iff (p : List Char) :
    ∀ k, Cache.containsRun p k = true ↔ ∃ pre post, k = pre ++ p ++ post := by
  intro k
  induction k with
  | nil =>
      simp only [Cache.containsRun, List.isEmpty_iff]
      constructor
      · rintro rfl
        exact ⟨[], [], rfl⟩
      · rintro ⟨pre, post, h⟩
        have h' := h.symm
        rw [List.append_assoc] at h'
        obtain ⟨hpre, hrest⟩ := List.append_eq_nil.mp h'
        exact (List.append_eq_nil.mp hrest).1
  | cons b bs ih =>
      simp only [Cache.containsRun, Bool.or_eq_true, startsRun_iff, ih]
      constructor
      · rintro (⟨post, hpost⟩ | ⟨pre, post, hpost⟩)
        · exact ⟨[], post, by simpa using hpost⟩
        · exact ⟨b :: pre, post, by simp [hpost]⟩
      · rintro ⟨pre, post, hpost⟩
        cases pre with
        | nil => exact Or.inl ⟨post, by simpa using hpost⟩
        | cons c cs =>
            right
            rw [List.cons_append, List.cons_append, List.cons.injEq] at hpost
            exact ⟨cs, post, hpost.2⟩

/-- C9, confirmed.  `invalidatePattern(pattern)` (for a literal pattern, as
used by the mutating tool handlers) removes exactly the entries whose full
(prefixed) stored key contains the pattern as a substring — an unanchored
match, no full-match requirement — regardless of each entry's expiry state,
and leaves every non-matching entry's value unchanged. -/
theorem c9_invalidatePattern_exact {T : Type} (c : Cache T)
    (pattern : String) (hwf : (c.cache.map Prod.fst).Nodup) :
    (∀ k, mapGet (c.invalidatePattern pattern).cache k =
        (mapGet c.cache k).filter
          (fun _ => !(Cache.regexTestLiteral pattern k)))
    ∧ (∀ k : String, Cache.regexTestLiteral pattern k = true ↔
        ∃ pre post, k.data = pre ++ pattern.data ++ post) := by
  refine ⟨fun k => ?_, fun k => containsRun_iff pattern.data k.data⟩
  have hfil := mapGet_filter c.cache hwf
    (fun p => !(Cache.regexTestLiteral pattern p.1)) k
  simp only [Cache.invalidatePattern]
  rw [hfil]
  cases hm : mapGet c.cache k with
  | none => simp [Option.filter]
  | some e =>
      cases hreg : Cache.regexTestLiteral pattern k <;>
        simp [Option.filter, hreg]

/-- C9 witness: a two-entry cache where the pattern `"greeting"` occurs
strictly inside one stored key and not in the other; the theorem applied
there shows only the containing key is removed. -/
theorem c9_witness :
    ((Cache.mk (T := Nat)
        [("prompts:greeting:production", ⟨1, 0⟩), ("prompts:other", ⟨2, 99⟩)]
        300 "").cache.map Prod.fst).Nodup
    ∧ ((∀ k, mapGet ((Cache.mk (T := Nat)
          [("prompts:greeting:production", ⟨1, 0⟩), ("prompts:other", ⟨2, 99⟩)]
          300 "").invalidatePattern "greeting").cache k =
        (mapGet (Cache.mk (T := Nat)
          [("prompts:greeting:production", ⟨1, 0⟩), ("prompts:other", ⟨2, 99⟩)]
          300 "").cache k).filter
            (fun _ => !(Cache.regexTestLiteral "greeting" k)))
      ∧ (∀ k : String, Cache.regexTestLiteral "greeting" k = true ↔
          ∃ pre post, k.data = pre ++ "greeting".data ++ post)) :=
  ⟨by decide, c9_invalidatePattern_exact
    (Cache.mk
      [("prompts:greeting:production", ⟨1, 0⟩), ("prompts:other", ⟨2, 99⟩)]
      300 "")
    "greeting" (by decide)⟩

/-- C6, corrected.  The shape checks do run before the network request: a
`chat` prompt whose content is not array-shaped, or a `text` prompt whose
content is not string-shaped, fails with zero requests issued.  But the
thrown object is a bare `new Error(message)` — not a `ValidationError`
carrying `field` and `constraint` (that class exists in
`src/types/index.ts` and is used only by the external validation layer). -/
theorem c6_createPrompt_failfast (M : Nat) (env : Nat → FetchOutcome)
    (params : CreatePromptParams) :
    (params.type = .chat → params.prompt.isArrayShaped = false →
      createPrompt M env params =
        (.error (.plain "Chat prompts must be an array of messages"), 0)
      ∧ ClientError.isValidationErr
          (.plain "Chat prompts must be an array of messages") = false)
    ∧ (params.type = .text → params.prompt.isStringShaped = false →
      createPrompt M env params =
        (.error (.plain "Text prompts must be a string"), 0)
      ∧ ClientError.isValidationErr
          (.plain "Text prompts must be a string") = false) := by
  constructor
  · intro ht hs
    refine ⟨?_, rfl⟩
    simp [createPrompt, createPromptCheck, ht, hs]
  · intro ht hs
    refine ⟨?_, rfl⟩
    simp [createPrompt, createPromptCheck, ht, hs]

/-- C6 counterexample: a `chat`-typed prompt with string content fails fast
with zero network requests — but with the generic error, which is not a
Validation error carrying field and constraint as the claim requires. -/
theorem c6_counterexample :
    createPrompt 3 (fun _ => FetchOutcome.response 200 none "ok")
        ⟨"p", .chat, .str "hi"⟩ =
      (.error (.plain "Chat prompts must be an array of messages"), 0)
    ∧ ClientError.isValidationErr
        (.plain "Chat prompts must be an array of messages") = false := by
  exact ⟨rfl, rfl⟩

/-- C6 witness: the amended theorem applied to a concrete mismatched
`text` prompt. -/
theorem c6_witness :
    CreatePromptParams.type ⟨"p", .text, .messages [("user", "hi")]⟩ =
      .text
    ∧ PromptContent.isStringShaped (.messages [("user", "hi")]) = false
    ∧ createPrompt 2 (fun _ => FetchOutcome.response 200 none "ok")
        ⟨"p", .text, .messages [("user", "hi")]⟩ =
      (.error (.plain "Text prompts must be a string"), 0) :=
  ⟨rfl, rfl,
    ((c6_createPrompt_failfast 2 (fun _ => FetchOutcome.response 200 none "ok")
      ⟨"p", .text, .messages [("user", "hi")]⟩).2 rfl rfl).1⟩

/-- C10, confirmed.  `requestTimeout: 0` and `maxRetries: 0` are falsy, so
the constructor's `config.x || default` coerces them to 30000 and 3; a
`Cache` built with `ttl: 0` likewise gets the default TTL 300: zero cannot
disable timeouts, retries or caching. -/
theorem c10_zero_config_coerced (cfg : LangfuseConfig) (opts : CacheOptions)
    (hpk : cfg.publicKey ≠ "") (hsk : cfg.secretKey ≠ "")
    (ht : cfg.requestTimeout = some 0) (hmr : cfg.maxRetries = some 0)
    (ho : opts.ttl = some 0) :
    LangfuseAPIClient.construct cfg =
      .ok ⟨cfg.publicKey ++ ":" ++ cfg.secretKey,
           jsOrStr cfg.baseUrl "https://cloud.langfuse.com", 30000, 3⟩
    ∧ (Cache.new Nat (some opts)).defaultTTL = 300 := by
  constructor
  · simp [LangfuseAPIClient.construct, hpk, hsk, ht, hmr, jsOrNum]
  · simp [Cache.new, ho, jsOrNum]

/-- C10 witness: the theorem applied to a concrete configuration with every
zero field. -/
theorem c10_witness :
    LangfuseConfig.publicKey ⟨"pk", "sk", none, some 0, some 0⟩ ≠ ""
    ∧ LangfuseConfig.secretKey ⟨"pk", "sk", none, some 0, some 0⟩ ≠ ""
    ∧ LangfuseAPIClient.construct ⟨"pk", "sk", none, some 0, some 0⟩ =
        .ok ⟨"pk" ++ ":" ++ "sk", jsOrStr none "https://cloud.langfuse.com",
             30000, 3⟩
    ∧ (Cache.new Nat (some ⟨some 0, none⟩)).defaultTTL = 300 :=
  ⟨by decide, by decide,
    (c10_zero_config_coerced ⟨"pk", "sk", none, some 0, some 0⟩
      ⟨some 0, none⟩ (by decide) (by decide) rfl rfl rfl).1,
    (c10_zero_config_coerced ⟨"pk", "sk", none, some 0, some 0⟩
      ⟨some 0, none⟩ (by decide) (by decide) rfl rfl rfl).2⟩

/-- C8, confirmed.  For a well-formed registry state, a repeated
`getOrCreate` with the same name returns the identical `Cache` object and
leaves the registry unchanged, whatever options the second call passes
(first registration wins); and `getOrCreate` with two distinct names hands
out distinct objects (distinct allocation identities). -/
theorem c8_one_cache_per_name {T : Type} (m : CacheManager T)
    (name a b : String) (o₁ o₂ o₃ o₄ : Option CacheOptions)
    (hwf : m.WF) (hab : a ≠ b) :
    (m.getCache name o₁).2.getCache name o₂ =
      ((m.getCache name o₁).1, (m.getCache name o₁).2)
    ∧ ((m.getCache a o₃).2.getCache b o₄).1.id ≠ (m.getCache a o₃).1.id := by
  obtain ⟨hnames, hids, hbound⟩ := hwf
  constructor
  · cases h : mapGet m.caches name with
    | some c => simp [CacheManager.getCache, h]
    | none => simp [CacheManager.getCache, h, mapGet_mapSet]
  · cases ha : mapGet m.caches a with
    | some ca =>
        cases hb : mapGet m.caches b with
        | some cb =>
            simp only [CacheManager.getCache, ha, hb]
            intro hid
            have hmema : (a, ca) ∈ m.caches := mapGet_some_mem _ _ _ ha
            have hmemb : (b, cb) ∈ m.caches := mapGet_some_mem _ _ _ hb
            have heq := List.inj_on_of_nodup_map hids hmemb hmema hid
            exact hab ((congrArg Prod.fst heq).symm)
        | none =>
            simp only [CacheManager.getCache, ha, hb]
            have hmema : (a, ca) ∈ m.caches := mapGet_some_mem _ _ _ ha
            have hlt : ca.id < m.nextId := hbound _ hmema
            omega
    | none =>
        have hb' : mapGet (mapSet m.caches a ⟨m.nextId, Cache.new T o₃⟩) b =
            mapGet m.caches b := by
          rw [mapGet_mapSet]; simp [hab]
        cases hb : mapGet m.caches b with
        | some cb =>
            simp only [CacheManager.getCache, ha, hb', hb]
            have hmemb : (b, cb) ∈ m.caches := mapGet_some_mem _ _ _ hb
            have hlt : cb.id < m.nextId := hbound _ hmemb
            omega
        | none =>
            simp only [CacheManager.getCache, ha, hb', hb]
            omega

/-- C8 witness: the theorem applied to the freshly constructed (empty)
registry with names `"a"` and `"b"`. -/
theorem c8_witness :
    (CacheManager.empty Nat).WF ∧ "a" ≠ "b"
    ∧ (((CacheManager.empty Nat).getCache "n" none).2.getCache "n"
          (some ⟨some 7, some "x"⟩) =
        (((CacheManager.empty Nat).getCache "n" none).1,
         ((CacheManager.empty Nat).getCache "n" none).2)
      ∧ (((CacheManager.empty Nat).getCache "a" none).2.getCache "b"
            none).1.id ≠
          ((CacheManager.empty Nat).getCache "a" none).1.id) :=
  ⟨by decide, by decide,
    c8_one_cache_per_name (CacheManager.empty Nat) "n" "a" "b"
      none (some ⟨some 7, some "x"⟩) none none (by decide) (by decide)⟩

end Langfuse
